import Mathlib

/-!
# Consent lifecycle and authorization-check model

A shallow embedding of the consent core of the repository
(`src/domain/services/consent.service.ts` together with the entity schemas and
the `MockConsentRepository`).  Timestamps are modelled as natural numbers
(milliseconds), the repository's keyed `Map` as a list of records in insertion
order, and thrown errors as `Except` values.  Each service method is a pure
function threading the store explicitly.
-/

set_option maxHeartbeats 1000000

namespace ConsentCore

/-- Model of `ConsentStatusEnum` from the entity schema. -/
inductive ConsentStatus
  | PENDING
  | ACTIVE
  | SUSPENDED
  | REVOKED
  | EXPIRED
deriving DecidableEq, Repr

/-- Model of the `actorType` enum (`subject | client | admin`) of the entity schema. -/
inductive ActorType
  | subject
  | client
  | admin
deriving DecidableEq, Repr

/-- The closed action enum of `UpdateConsentRequestSchema`
(`z.enum(['approve', 'suspend', 'resume', 'revoke'])`). -/
inductive UAction
  | approve
  | suspend
  | resume
  | revoke
deriving DecidableEq, Repr

/-- String form of an action, as interpolated into audit `action` fields. -/
def UAction.name : UAction → String
  | .approve => "approve"
  | .suspend => "suspend"
  | .resume => "resume"
  | .revoke => "revoke"

/-- String form of a status, as interpolated into error messages. -/
def ConsentStatus.name : ConsentStatus → String
  | .PENDING => "PENDING"
  | .ACTIVE => "ACTIVE"
  | .SUSPENDED => "SUSPENDED"
  | .REVOKED => "REVOKED"
  | .EXPIRED => "EXPIRED"

/-- Model of `AuditEntrySchema`: timestamps are naturals, optional fields are `Option`. -/
structure AuditEntry where
  timestamp : Nat
  action : String
  actor : String
  actorType : ActorType
  previousStatus : Option ConsentStatus
  newStatus : Option ConsentStatus
  reason : Option String
deriving DecidableEq, Repr

/-- Model of `ConsentSchema`: the sole persistent entity. -/
structure Consent where
  id : String
  subjectId : String
  clientId : String
  dataScopes : List String
  accountIds : List String
  purpose : String
  status : ConsentStatus
  createdAt : Nat
  updatedAt : Nat
  expiresAt : Nat
  auditTrail : List AuditEntry
deriving DecidableEq, Repr

/-- The thrown error classes of `shared/errors`:
`NotFoundError`, `ValidationError`, `ForbiddenError`, `ConflictError`. -/
inductive Err
  | notFound (msg : String)
  | validation (msg : String)
  | forbidden (msg : String)
  | conflict (msg : String)
deriving DecidableEq, Repr

/-- The `MockConsentRepository` map, as a list in insertion order. -/
abbrev Store := List Consent

/-- Model of `MockConsentRepository.findById`, with the thrown `NotFoundError`
represented by `none`. -/
def findById (store : Store) (id : String) : Option Consent :=
  store.find? (fun c => c.id = id)

/-- Rewriting the stored record with the given id (`consents.set(id, ...)`
after a keyed lookup). -/
def updateById (store : Store) (id : String) (f : Consent → Consent) : Store :=
  store.map (fun c => if c.id = id then f c else c)

/-- Model of `MockConsentRepository.update` restricted to the status and updatedAt fields. -/
def repoUpdateStatus (store : Store) (id : String) (st : ConsentStatus) (now : Nat) : Store :=
  updateById store id (fun c => { c with status := st, updatedAt := now })

/-- Model of `MockConsentRepository.addAuditEntry`: pushes onto the stored
record's audit trail. -/
def repoAddAudit (store : Store) (id : String) (e : AuditEntry) : Store :=
  updateById store id (fun c => { c with auditTrail := c.auditTrail ++ [e] })

/-- The audit entry built inside `ConsentService.expireConsent`. -/
def expiryAuditEntry (c : Consent) (now : Nat) : AuditEntry :=
  { timestamp := now
    action := "consent.expired"
    actor := "system"
    actorType := .admin
    previousStatus := some c.status
    newStatus := some .EXPIRED
    reason := some "Consent expiry time reached" }

/-- Model of `ConsentService.expireConsent`: no-op on an already `EXPIRED` record,
otherwise persists status `EXPIRED` and appends the expiry audit entry. -/
def expireConsent (c : Consent) (now : Nat) (store : Store) : Store :=
  if c.status = .EXPIRED then store
  else repoAddAudit (repoUpdateStatus store c.id .EXPIRED now) c.id (expiryAuditEntry c now)

/-- Model of `CreateConsentRequestSchema` (scopes and account ids as plain strings,
`expiry` a timestamp). -/
structure CreateConsentRequest where
  subjectId : String
  clientId : String
  dataScopes : List String
  accountIds : List String
  purpose : String
  expiry : Nat
deriving DecidableEq, Repr

/-- Model of `CreateConsentResponseSchema`: the creation summary; it has no
`auditTrail` field. -/
structure CreateConsentResponse where
  id : String
  status : ConsentStatus
  subjectId : String
  clientId : String
  dataScopes : List String
  accountIds : List String
  purpose : String
  createdAt : Nat
  expiresAt : Nat
deriving DecidableEq, Repr

/-- One year after `now`.  The source computes `setFullYear(getFullYear()+1)`;
the calendar-year step is modelled as a fixed 365-day span in milliseconds. -/
def oneYearFrom (now : Nat) : Nat := now + 365 * 24 * 60 * 60 * 1000

/-- Model of `ConsentService.validateCreateRequest`. -/
def validateCreateRequest (req : CreateConsentRequest) (now : Nat) : Except Err Unit :=
  if req.expiry ≤ now then .error (.validation "Expiry date must be in the future")
  else if oneYearFrom now < req.expiry then
    .error (.validation "Expiry date cannot be more than one year in the future")
  else .ok ()

/-- The seed audit entry built inside `ConsentService.createConsent`. -/
def createdAuditEntry (clientIdArg : String) (now : Nat) : AuditEntry :=
  { timestamp := now
    action := "consent.created"
    actor := clientIdArg
    actorType := .client
    previousStatus := none
    newStatus := some .PENDING
    reason := none }

/-- The record constructed by `ConsentService.createConsent`; `freshId` stands
for the `randomUUID()` value.  Note the record's `clientId` comes from the
request body, while the audit actor is the separately passed `clientIdArg`. -/
def newConsentRecord (req : CreateConsentRequest) (clientIdArg : String) (now : Nat)
    (freshId : String) : Consent :=
  { id := freshId
    subjectId := req.subjectId
    clientId := req.clientId
    dataScopes := req.dataScopes
    accountIds := req.accountIds
    purpose := req.purpose
    status := .PENDING
    createdAt := now
    updatedAt := now
    expiresAt := req.expiry
    auditTrail := [createdAuditEntry clientIdArg now] }

/-- The creation summary returned by `createConsent` (field-by-field copy,
audit trail omitted because the response shape has no such field). -/
def createResponse (c : Consent) : CreateConsentResponse :=
  { id := c.id
    status := c.status
    subjectId := c.subjectId
    clientId := c.clientId
    dataScopes := c.dataScopes
    accountIds := c.accountIds
    purpose := c.purpose
    createdAt := c.createdAt
    expiresAt := c.expiresAt }

/-- Model of `ConsentService.createConsent`. -/
def createConsent (req : CreateConsentRequest) (clientIdArg : String) (now : Nat)
    (freshId : String) (store : Store) : Except Err CreateConsentResponse × Store :=
  match validateCreateRequest req now with
  | .error e => (.error e, store)
  | .ok _ =>
    let c := newConsentRecord req clientIdArg now freshId
    (.ok (createResponse c), store ++ [c])

/-- Model of `UpdateConsentRequestSchema`. -/
structure UpdateConsentRequest where
  action : UAction
  reason : Option String
deriving DecidableEq, Repr

/-- Model of `ConsentService.validateUpdatePermissions`.  The source's unreachable
default branch (a `ValidationError` on an unknown action string) is absent
because `UAction` is the schema's closed enum. -/
def validateUpdatePermissions (c : Consent) (action : UAction) (actorId : String)
    (actorType : ActorType) : Except Err Unit :=
  match action with
  | .approve =>
    if actorType ≠ .subject ∨ actorId ≠ c.subjectId then
      .error (.forbidden "Only the subject can approve consent")
    else .ok ()
  | .revoke =>
    if actorType = .subject ∧ actorId ≠ c.subjectId then
      .error (.forbidden "Subject can only revoke their own consent")
    else if actorType = .client ∧ actorId ≠ c.clientId then
      .error (.forbidden "Client can only revoke their own consent")
    else if actorType ≠ .subject ∧ actorType ≠ .client ∧ actorType ≠ .admin then
      .error (.forbidden "Insufficient permissions to revoke consent")
    else .ok ()
  | .suspend =>
    if actorType ≠ .admin then .error (.forbidden "Only admins can suspend/resume consent")
    else .ok ()
  | .resume =>
    if actorType ≠ .admin then .error (.forbidden "Only admins can suspend/resume consent")
    else .ok ()

/-- Model of `ConsentService.getNewStatusForAction` (total on the closed enum). -/
def getNewStatusForAction : UAction → ConsentStatus
  | .approve => .ACTIVE
  | .suspend => .SUSPENDED
  | .resume => .ACTIVE
  | .revoke => .REVOKED

/-- The `validTransitions` record of `ConsentService.validateStateTransition`:
allowed next statuses keyed by current status. -/
def validTransitions : ConsentStatus → List ConsentStatus
  | .PENDING => [.ACTIVE, .REVOKED]
  | .ACTIVE => [.SUSPENDED, .REVOKED]
  | .SUSPENDED => [.ACTIVE, .REVOKED]
  | .REVOKED => []
  | .EXPIRED => []

/-- Model of `ConsentService.validateStateTransition`. -/
def validateStateTransition (cur next : ConsentStatus) (action : UAction) : Except Err Unit :=
  if next ∈ validTransitions cur then .ok ()
  else
    .error (.conflict ("Invalid state transition from " ++ cur.name ++ " to " ++ next.name ++
      " via action " ++ action.name))

/-- The audit entry built inside `ConsentService.updateConsent`. -/
def updateAuditEntry (c : Consent) (req : UpdateConsentRequest) (actorId : String)
    (actorType : ActorType) (newStatus : ConsentStatus) (now : Nat) : AuditEntry :=
  { timestamp := now
    action := "consent." ++ req.action.name
    actor := actorId
    actorType := actorType
    previousStatus := some c.status
    newStatus := some newStatus
    reason := req.reason }

/-- Model of `ConsentService.updateConsent`.  The returned record reflects both the
status update and the appended audit entry (in the source the returned object
shares its `auditTrail` array with the stored record). -/
def updateConsent (store : Store) (consentId : String) (req : UpdateConsentRequest)
    (actorId : String) (actorType : ActorType) (now : Nat) : Except Err Consent × Store :=
  match findById store consentId with
  | none => (.error (.notFound ("Consent with ID " ++ consentId ++ " not found")), store)
  | some c =>
    if now > c.expiresAt then
      (.error (.conflict "Cannot update expired consent"), expireConsent c now store)
    else
      match validateUpdatePermissions c req.action actorId actorType with
      | .error e => (.error e, store)
      | .ok _ =>
        let newStatus := getNewStatusForAction req.action
        match validateStateTransition c.status newStatus req.action with
        | .error e => (.error e, store)
        | .ok _ =>
          let entry := updateAuditEntry c req actorId actorType newStatus now
          let store2 := repoAddAudit (repoUpdateStatus store consentId newStatus now)
            consentId entry
          (.ok { c with status := newStatus, updatedAt := now,
                        auditTrail := c.auditTrail ++ [entry] }, store2)

/-- Model of `ConsentService.validateGetPermissions` (the default branch is unreachable
for the closed `ActorType`). -/
def validateGetPermissions (c : Consent) (requesterId : String) (requesterType : ActorType) :
    Except Err Unit :=
  match requesterType with
  | .subject =>
    if requesterId ≠ c.subjectId then
      .error (.forbidden "Subject can only access their own consent")
    else .ok ()
  | .client =>
    if requesterId ≠ c.clientId then
      .error (.forbidden "Client can only access their own consent")
    else .ok ()
  | .admin => .ok ()

/-- Model of `ConsentService.getConsent`.  The source returns the object fetched before
the lazy expiry; its status field is the pre-expiry one, while its
`auditTrail` array is shared with (hence equal to) the stored record's. -/
def getConsent (store : Store) (consentId : String) (requesterId : String)
    (requesterType : ActorType) (now : Nat) : Except Err Consent × Store :=
  match findById store consentId with
  | none => (.error (.notFound ("Consent with ID " ++ consentId ++ " not found")), store)
  | some c =>
    let store1 := if now > c.expiresAt then expireConsent c now store else store
    match validateGetPermissions c requesterId requesterType with
    | .error e => (.error e, store1)
    | .ok _ =>
      (.ok { c with auditTrail :=
               ((findById store1 consentId).map Consent.auditTrail).getD c.auditTrail },
       store1)

/-- Model of `ConsentCheckInput` (the zod schema; `asOf` a timestamp). -/
structure ConsentCheckInput where
  subjectId : String
  clientId : String
  scopes : List String
  accountIds : Option (List String)
  asOf : Option Nat
deriving DecidableEq, Repr

/-- Model of `ConsentCheckResult`. -/
structure ConsentCheckResult where
  allow : Bool
  consentId : Option String
  expiresAt : Option Nat
  filteredAccountIds : Option (List String)
  reasons : Option (List String)
deriving DecidableEq, Repr

/-- A denial result carrying only `reasons`. -/
def denyResult (rs : List String) : ConsentCheckResult :=
  { allow := false, consentId := none, expiresAt := none,
    filteredAccountIds := none, reasons := some rs }

/-- The `consent.check` audit entry appended by `logConsentCheck` on an
allowed check. -/
def checkAuditEntry (input : ConsentCheckInput) (now : Nat) : AuditEntry :=
  { timestamp := now
    action := "consent.check"
    actor := input.subjectId
    actorType := .subject
    previousStatus := none
    newStatus := none
    reason := some "access_granted" }

/-- Model of the scope filter: scopes not contained in the consent's dataScopes. -/
def missingScopes (scopes : List String) (ds : List String) : List String :=
  scopes.filter (fun s => ! ds.contains s)

/-- Model of the scope test: every requested scope is contained in dataScopes. -/
def scopesSatisfied (scopes : List String) (c : Consent) : Bool :=
  scopes.all (fun s => c.dataScopes.contains s)

/-- The matching loop of `ConsentService.check`, over the subject's consents.
Returns the first match (record plus its `filteredAccountIds`), the store
after the lazy-expiry side effects performed so far, and the list of visited
records as the loop left them (the loop patches an expired record's local
`status` to `EXPIRED`; the patched objects feed the denial classification). -/
def scanLoop (input : ConsentCheckInput) (checkTime now : Nat) :
    List Consent → Store → Option (Consent × Option (List String)) × Store × List Consent
  | [], st => (none, st, [])
  | c :: rest, st =>
    if c.clientId ≠ input.clientId then
      let r := scanLoop input checkTime now rest st
      (r.1, r.2.1, c :: r.2.2)
    else if c.status ≠ .ACTIVE then
      let r := scanLoop input checkTime now rest st
      (r.1, r.2.1, c :: r.2.2)
    else if checkTime > c.expiresAt then
      let r := scanLoop input checkTime now rest (expireConsent c now st)
      (r.1, r.2.1, { c with status := .EXPIRED } :: r.2.2)
    else if missingScopes input.scopes c.dataScopes ≠ [] then
      let r := scanLoop input checkTime now rest st
      (r.1, r.2.1, c :: r.2.2)
    else
      match input.accountIds with
      | some accts =>
        if accts.length > 0 then
          let filtered := accts.filter (fun a => c.accountIds.contains a)
          if filtered = [] then
            let r := scanLoop input checkTime now rest st
            (r.1, r.2.1, c :: r.2.2)
          else (some (c, some filtered), st, [])
        else (some (c, none), st, [])
      | none => (some (c, none), st, [])

/-- The denial classification at the end of `ConsentService.check`, over the
consents as the loop left them. -/
def classifyDenial (input : ConsentCheckInput) (seen : List Consent) : List String :=
  let activeConsents :=
    seen.filter (fun c => decide (c.clientId = input.clientId ∧ c.status = .ACTIVE))
  if activeConsents.isEmpty then
    let clientConsents := seen.filter (fun c => decide (c.clientId = input.clientId))
    if clientConsents.isEmpty then ["client_mismatch"]
    else
      let statuses := clientConsents.map Consent.status
      if ConsentStatus.EXPIRED ∈ statuses then ["expired"]
      else if ConsentStatus.REVOKED ∈ statuses then ["revoked"]
      else if ConsentStatus.SUSPENDED ∈ statuses then ["suspended"]
      else ["not_active"]
  else if ! activeConsents.any (scopesSatisfied input.scopes) then ["missing_scope"]
  else ["not_account_scoped"]

/-- The body of `ConsentService.check` (everything inside the `try`). -/
def checkBody (store : Store) (input : ConsentCheckInput) (now : Nat) :
    ConsentCheckResult × Store :=
  if input.subjectId = "" ∨ input.clientId = "" ∨ input.scopes = [] then
    (denyResult ["invalid_input"], store)
  else
    let consents := store.filter (fun c => decide (c.subjectId = input.subjectId))
    if consents.isEmpty then (denyResult ["no_consent"], store)
    else
      let checkTime := input.asOf.getD now
      match scanLoop input checkTime now consents store with
      | (some (c, filtered), st, _) =>
        ({ allow := true, consentId := some c.id, expiresAt := some c.expiresAt,
           filteredAccountIds := filtered, reasons := none },
         repoAddAudit st c.id (checkAuditEntry input now))
      | (none, st, seenL) => (denyResult (classifyDenial input seenL), st)

/-- The fail-closed result produced by the `catch` branch of `check`. -/
def systemErrorResult : ConsentCheckResult := denyResult ["system_error"]

/-- The `try`/`catch` of `ConsentService.check`: an internal failure of the
body (modelled as an `Except` error) is converted to `systemErrorResult`
with the store untouched; a normal completion is returned as-is. -/
def checkRun (body : Except String (ConsentCheckResult × Store)) (store : Store) :
    ConsentCheckResult × Store :=
  match body with
  | .ok r => r
  | .error _ => (systemErrorResult, store)

/-- Model of `ConsentService.check`: the body wrapped in the catch. -/
def check (store : Store) (input : ConsentCheckInput) (now : Nat) :
    ConsentCheckResult × Store :=
  checkRun (.ok (checkBody store input now)) store

/-! ## Specification-side predicates -/

/-- Account condition as the code enforces it: no `accountIds`, or an empty
`accountIds` array, or a non-empty intersection with the record's accounts. -/
def accountOkB (input : ConsentCheckInput) (c : Consent) : Bool :=
  match input.accountIds with
  | none => true
  | some accts => accts.isEmpty || !(accts.filter (fun a => c.accountIds.contains a)).isEmpty

/-- A record satisfies the (amended) soundness condition of `check`: client
binding, `ACTIVE` status, not yet expired at the effective time (non-strict:
`checkTime ≤ expiresAt`), all requested scopes granted, account condition. -/
def consentMatches (input : ConsentCheckInput) (checkTime : Nat) (c : Consent) : Prop :=
  c.clientId = input.clientId ∧ c.status = .ACTIVE ∧ checkTime ≤ c.expiresAt ∧
  missingScopes input.scopes c.dataScopes = [] ∧ accountOkB input c = true

instance (input : ConsentCheckInput) (checkTime : Nat) (c : Consent) :
    Decidable (consentMatches input checkTime c) := by
  unfold consentMatches; infer_instance

/-- The `filteredAccountIds` value computed for a matching record. -/
def expectedFiltered (input : ConsentCheckInput) (c : Consent) : Option (List String) :=
  match input.accountIds with
  | some accts =>
    if accts.length > 0 then some (accts.filter (fun a => c.accountIds.contains a)) else none
  | none => none

/-- Account condition exactly as the claim words it: `accountIds` undefined,
or the intersection with the record's accounts non-empty. -/
def strictAccountOkB (input : ConsentCheckInput) (c : Consent) : Bool :=
  match input.accountIds with
  | none => true
  | some accts => !(accts.filter (fun a => c.accountIds.contains a)).isEmpty

/-- The claimed soundness condition, verbatim: `expiresAt` strictly after the
effective time, and the strict account condition. -/
def specStrictMatch (input : ConsentCheckInput) (checkTime : Nat) (c : Consent) : Prop :=
  c.clientId = input.clientId ∧ c.status = .ACTIVE ∧ checkTime < c.expiresAt ∧
  missingScopes input.scopes c.dataScopes = [] ∧ strictAccountOkB input c = true

instance (input : ConsentCheckInput) (checkTime : Nat) (c : Consent) :
    Decidable (specStrictMatch input checkTime c) := by
  unfold specStrictMatch; infer_instance

/-- How the matching loop leaves a visited record: a stored-`ACTIVE` record of
the requested client whose expiry has passed is relabelled `EXPIRED`
(and persisted so); every other record is untouched. -/
def patchExpiry (input : ConsentCheckInput) (checkTime : Nat) (c : Consent) : Consent :=
  if c.clientId = input.clientId ∧ c.status = .ACTIVE ∧ checkTime > c.expiresAt then
    { c with status := .EXPIRED }
  else c

/-- The subject's records with the lazy-expiry relabelling applied: their
statuses agree with the stored statuses once `check` returns. -/
def effectiveConsents (store : Store) (input : ConsentCheckInput) (checkTime : Nat) :
    List Consent :=
  (store.filter (fun c => decide (c.subjectId = input.subjectId))).map
    (patchExpiry input checkTime)

/-- The actor/action combinations the spec permits for `updateConsent`. -/
def permittedSpec (c : Consent) (a : UAction) (actorId : String) (aty : ActorType) : Prop :=
  (a = .approve ∧ aty = .subject ∧ actorId = c.subjectId) ∨
  ((a = .suspend ∨ a = .resume) ∧ aty = .admin) ∨
  (a = .revoke ∧
    ((aty = .subject ∧ actorId = c.subjectId) ∨ (aty = .client ∧ actorId = c.clientId) ∨
     aty = .admin))

instance (c : Consent) (a : UAction) (actorId : String) (aty : ActorType) :
    Decidable (permittedSpec c a actorId aty) := by
  unfold permittedSpec; infer_instance

/-- The transition table the code actually implements: the §4.1 table plus the
two extra pairs admitted by validating only the (status, target-status) edge,
namely `PENDING + resume → ACTIVE` and `SUSPENDED + approve → ACTIVE`. -/
def amendedTargets : ConsentStatus → UAction → Option ConsentStatus
  | .PENDING, .approve => some .ACTIVE
  | .PENDING, .revoke => some .REVOKED
  | .PENDING, .resume => some .ACTIVE
  | .ACTIVE, .suspend => some .SUSPENDED
  | .ACTIVE, .revoke => some .REVOKED
  | .SUSPENDED, .resume => some .ACTIVE
  | .SUSPENDED, .revoke => some .REVOKED
  | .SUSPENDED, .approve => some .ACTIVE
  | _, _ => none

/-! ## Store lemmas -/

theorem findById_id (store : Store) (id1 : String) (c : Consent)
    (h : findById store id1 = some c) : c.id = id1 := by
  have := List.find?_some h
  simpa using this

theorem findById_mem (store : Store) (id1 : String) (c : Consent)
    (h : findById store id1 = some c) : c ∈ store :=
  List.mem_of_find?_eq_some h

theorem findById_updateById_of_ne (store : Store) (id1 id2 : String) (f : Consent → Consent)
    (hf : ∀ c, (f c).id = c.id) (h : id1 ≠ id2) :
    findById (updateById store id1 f) id2 = findById store id2 := by
  induction store with
  | nil => rfl
  | cons c rest ih =>
    by_cases h1 : c.id = id1
    · have h2 : ¬ c.id = id2 := fun hc => h (h1 ▸ hc)
      simp only [updateById, List.map_cons, findById] at *
      rw [if_pos h1, List.find?_cons_of_neg _ (by simp [hf, h2]),
          List.find?_cons_of_neg _ (by simp [h2])]
      exact ih
    · by_cases h2 : c.id = id2
      · simp only [updateById, List.map_cons, findById] at *
        rw [if_neg h1, List.find?_cons_of_pos _ (by simp [h2]),
            List.find?_cons_of_pos _ (by simp [h2])]
      · simp only [updateById, List.map_cons, findById] at *
        rw [if_neg h1, List.find?_cons_of_neg _ (by simp [h2]),
            List.find?_cons_of_neg _ (by simp [h2])]
        exact ih

theorem findById_updateById_self (store : Store) (id1 : String) (f : Consent → Consent)
    (hf : ∀ c, (f c).id = c.id) :
    findById (updateById store id1 f) id1 = (findById store id1).map f := by
  induction store with
  | nil => rfl
  | cons c rest ih =>
    by_cases h1 : c.id = id1
    · simp only [updateById, List.map_cons, findById] at *
      rw [if_pos h1, List.find?_cons_of_pos _ (by simp [hf, h1]),
          List.find?_cons_of_pos _ (by simp [h1])]
      rfl
    · simp only [updateById, List.map_cons, findById] at *
      rw [if_neg h1, List.find?_cons_of_neg _ (by simp [h1]),
          List.find?_cons_of_neg _ (by simp [h1])]
      exact ih

theorem findById_expireConsent_of_ne (c : Consent) (now : Nat) (store : Store) (id2 : String)
    (h : c.id ≠ id2) :
    findById (expireConsent c now store) id2 = findById store id2 := by
  unfold expireConsent
  split
  · rfl
  · rw [repoAddAudit, repoUpdateStatus,
      findById_updateById_of_ne _ _ _ (fun y => { y with auditTrail := y.auditTrail ++ [expiryAuditEntry c now] }) (fun _ => rfl) h,
      findById_updateById_of_ne _ _ _ (fun y => { y with status := ConsentStatus.EXPIRED, updatedAt := now }) (fun _ => rfl) h]

theorem findById_expireConsent_self (c x : Consent) (now : Nat) (store : Store)
    (hc : c.status ≠ .EXPIRED) (hx : findById store c.id = some x) :
    findById (expireConsent c now store) c.id =
      some { x with status := .EXPIRED, updatedAt := now,
                    auditTrail := x.auditTrail ++ [expiryAuditEntry c now] } := by
  unfold expireConsent
  rw [if_neg hc, repoAddAudit, repoUpdateStatus,
    findById_updateById_self _ _ (fun y => { y with auditTrail := y.auditTrail ++ [expiryAuditEntry c now] }) (fun _ => rfl),
    findById_updateById_self _ _ (fun y => { y with status := ConsentStatus.EXPIRED, updatedAt := now }) (fun _ => rfl), hx]
  rfl

theorem mem_id_unique (store : Store) (h : (store.map Consent.id).Nodup)
    {c1 c2 : Consent} (h1 : c1 ∈ store) (h2 : c2 ∈ store) (he : c1.id = c2.id) : c1 = c2 := by
  induction store with
  | nil => cases h1
  | cons a rest ih =>
    simp only [List.map_cons, List.nodup_cons] at h
    rcases List.mem_cons.mp h1 with rfl | h1'
    · rcases List.mem_cons.mp h2 with rfl | h2'
      · rfl
      · exact absurd (he ▸ List.mem_map_of_mem Consent.id h2') h.1
    · rcases List.mem_cons.mp h2 with rfl | h2'
      · exact absurd (he ▸ List.mem_map_of_mem Consent.id h1') (by simpa [he] using h.1)
      · exact ih h.2 h1' h2'

/-! ## Scan-loop lemmas -/

theorem scanLoop_some_spec (input : ConsentCheckInput) (t now : Nat) :
    ∀ (l : List Consent) (st : Store) (c : Consent) (f : Option (List String)),
      (scanLoop input t now l st).1 = some (c, f) →
      c ∈ l ∧ consentMatches input t c ∧ f = expectedFiltered input c := by
  intro l
  induction l with
  | nil =>
    intro st c f h
    simp [scanLoop] at h
  | cons a rest ih =>
    intro st c f h
    simp only [scanLoop] at h
    split at h
    · dsimp only at h
      obtain ⟨hm, hmm, hf⟩ := ih _ c f h
      exact ⟨List.mem_cons_of_mem _ hm, hmm, hf⟩
    · rename_i h1
      split at h
      · dsimp only at h
        obtain ⟨hm, hmm, hf⟩ := ih _ c f h
        exact ⟨List.mem_cons_of_mem _ hm, hmm, hf⟩
      · rename_i h2
        split at h
        · dsimp only at h
          obtain ⟨hm, hmm, hf⟩ := ih _ c f h
          exact ⟨List.mem_cons_of_mem _ hm, hmm, hf⟩
        · rename_i h3
          split at h
          · dsimp only at h
            obtain ⟨hm, hmm, hf⟩ := ih _ c f h
            exact ⟨List.mem_cons_of_mem _ hm, hmm, hf⟩
          · rename_i h4
            split at h
            · rename_i accts hacc
              split at h
              · rename_i h5
                split at h
                · dsimp only at h
                  obtain ⟨hm, hmm, hf⟩ := ih _ c f h
                  exact ⟨List.mem_cons_of_mem _ hm, hmm, hf⟩
                · rename_i h6
                  dsimp only at h
                  simp only [Option.some.injEq, Prod.mk.injEq] at h
                  obtain ⟨rfl, rfl⟩ := h
                  refine ⟨List.mem_cons_self _ _, ⟨by simpa using h1, by simpa using h2,
                    Nat.le_of_not_lt h3, by simpa using h4, ?_⟩, ?_⟩
                  · simp only [accountOkB, hacc, List.isEmpty_iff, Bool.or_eq_true,
                      decide_eq_true_eq, Bool.not_eq_true']
                    rw [Bool.eq_false_iff]
                    exact Or.inr (by simpa [List.isEmpty_iff] using h6)
                  · simp [expectedFiltered, hacc, h5]
              · rename_i h5
                dsimp only at h
                simp only [Option.some.injEq, Prod.mk.injEq] at h
                obtain ⟨rfl, rfl⟩ := h
                refine ⟨List.mem_cons_self _ _, ⟨by simpa using h1, by simpa using h2,
                  Nat.le_of_not_lt h3, by simpa using h4, ?_⟩, ?_⟩
                · have h5' : accts = [] := List.length_eq_zero.mp (Nat.eq_zero_of_not_pos h5)
                  simp [accountOkB, hacc, h5']
                · simp [expectedFiltered, hacc, h5]
            · rename_i hacc
              dsimp only at h
              simp only [Option.some.injEq, Prod.mk.injEq] at h
              obtain ⟨rfl, rfl⟩ := h
              refine ⟨List.mem_cons_self _ _, ⟨by simpa using h1, by simpa using h2,
                Nat.le_of_not_lt h3, by simpa using h4, ?_⟩, ?_⟩
              · simp [accountOkB, hacc]
              · simp [expectedFiltered, hacc]

theorem scanLoop_none_spec (input : ConsentCheckInput) (t now : Nat) :
    ∀ (l : List Consent) (st : Store),
      (scanLoop input t now l st).1 = none →
      (∀ c ∈ l, ¬ consentMatches input t c) ∧
      (scanLoop input t now l st).2.2 = l.map (patchExpiry input t) := by
  intro l
  induction l with
  | nil => intro st h; simp [scanLoop]
  | cons a rest ih =>
    intro st h
    simp only [scanLoop] at h ⊢
    split at h
    · rename_i h1
      dsimp only at h ⊢
      rw [if_pos h1] at *
      obtain ⟨hall, hseen⟩ := ih _ h
      refine ⟨?_, by simpa [patchExpiry, h1] using hseen⟩
      intro c hc
      rcases List.mem_cons.mp hc with rfl | hc'
      · exact fun hm => h1 hm.1
      · exact hall c hc'
    · rename_i h1
      split at h
      · rename_i h2
        dsimp only at h ⊢
        rw [if_neg h1, if_pos h2] at *
        obtain ⟨hall, hseen⟩ := ih _ h
        refine ⟨?_, by simpa [patchExpiry, h2] using hseen⟩
        intro c hc
        rcases List.mem_cons.mp hc with rfl | hc'
        · exact fun hm => h2 hm.2.1
        · exact hall c hc'
      · rename_i h2
        split at h
        · rename_i h3
          dsimp only at h ⊢
          rw [if_neg h1, if_neg h2, if_pos h3] at *
          obtain ⟨hall, hseen⟩ := ih _ h
          have h1' : a.clientId = input.clientId := not_not.mp h1
          have h2' : a.status = .ACTIVE := not_not.mp h2
          refine ⟨?_, by simpa [patchExpiry, h1', h2', h3] using hseen⟩
          intro c hc
          rcases List.mem_cons.mp hc with rfl | hc'
          · exact fun hm => Nat.not_le_of_lt h3 hm.2.2.1
          · exact hall c hc'
        · rename_i h3
          split at h
          · rename_i h4
            dsimp only at h ⊢
            rw [if_neg h1, if_neg h2, if_neg h3, if_pos h4] at *
            obtain ⟨hall, hseen⟩ := ih _ h
            refine ⟨?_, by simpa [patchExpiry, h3] using hseen⟩
            intro c hc
            rcases List.mem_cons.mp hc with rfl | hc'
            · exact fun hm => h4 hm.2.2.2.1
            · exact hall c hc'
          · rename_i h4
            split at h
            · rename_i accts hacc
              split at h
              · rename_i h5
                split at h
                · rename_i h6
                  rw [if_pos h5, if_pos h6]
                  dsimp only at h
                  obtain ⟨hall, hseen⟩ := ih _ h
                  refine ⟨?_, by simpa [patchExpiry, h3] using hseen⟩
                  intro c hc
                  rcases List.mem_cons.mp hc with rfl | hc'
                  · intro hm
                    have hb := hm.2.2.2.2
                    rw [accountOkB, hacc] at hb
                    simp only [Bool.or_eq_true, List.isEmpty_iff, Bool.not_eq_true',
                      List.isEmpty_eq_false] at hb  -- placeholder simp set
                    rcases hb with hb | hb
                    · exact absurd (List.length_eq_zero.mpr hb) (Nat.pos_iff_ne_zero.mp h5)
                    · exact hb h6
                  · exact hall c hc'
                · simp at h
              · simp at h
            · simp at h

theorem scanLoop_findById_preserved (input : ConsentCheckInput) (t now : Nat) (cid : String) :
    ∀ (l : List Consent) (st : Store),
      (∀ c ∈ l, c.status = .ACTIVE → c.id ≠ cid) →
      findById (scanLoop input t now l st).2.1 cid = findById st cid := by
  intro l
  induction l with
  | nil => intro st hl; simp [scanLoop]
  | cons a rest ih =>
    intro st hl
    simp only [scanLoop]
    split
    · dsimp only
      exact ih st (fun c hc => hl c (List.mem_cons_of_mem _ hc))
    · rename_i h1
      split
      · dsimp only
        exact ih st (fun c hc => hl c (List.mem_cons_of_mem _ hc))
      · rename_i h2
        split
        · dsimp only
          rw [ih _ (fun c hc => hl c (List.mem_cons_of_mem _ hc)),
              findById_expireConsent_of_ne _ _ _ _
                (hl a (List.mem_cons_self _ _) (not_not.mp h2))]
        · split
          · dsimp only
            exact ih st (fun c hc => hl c (List.mem_cons_of_mem _ hc))
          · split
            · split
              · split
                · dsimp only
                  exact ih st (fun c hc => hl c (List.mem_cons_of_mem _ hc))
                · rfl
              · rfl
            · rfl

theorem scanLoop_accountIds_nil (input : ConsentCheckInput) (t now : Nat)
    (h : input.accountIds = some []) :
    ∀ (l : List Consent) (st : Store),
      scanLoop input t now l st = scanLoop { input with accountIds := none } t now l st := by
  intro l
  induction l with
  | nil => intro st; simp [scanLoop]
  | cons a rest ih =>
    intro st
    simp only [scanLoop, h]
    by_cases h1 : a.clientId = input.clientId
    · rw [if_neg (not_not.mpr h1), if_neg (not_not.mpr h1)]
      by_cases h2 : a.status = ConsentStatus.ACTIVE
      · rw [if_neg (not_not.mpr h2), if_neg (not_not.mpr h2)]
        by_cases h3 : t > a.expiresAt
        · rw [if_pos h3, if_pos h3, ih]
        · rw [if_neg h3, if_neg h3]
          by_cases h4 : missingScopes input.scopes a.dataScopes = []
          · rw [if_neg (not_not.mpr h4), if_neg (not_not.mpr h4)]
            norm_num
          · rw [if_pos h4, if_pos h4, ih]
      · rw [if_pos h2, if_pos h2, ih]
    · rw [if_pos h1, if_pos h1, ih]

/-! ## Concrete fixtures for counterexamples and witnesses -/

/-- An `ACTIVE` consent used as base fixture. -/
def sampleConsent : Consent :=
  { id := "c1", subjectId := "s", clientId := "cl",
    dataScopes := ["accounts:read"], accountIds := ["a1"], purpose := "p",
    status := .ACTIVE, createdAt := 0, updatedAt := 0, expiresAt := 100,
    auditTrail := [] }

def pendingConsent : Consent := { sampleConsent with status := .PENDING }

def expiredConsent : Consent := { sampleConsent with status := .EXPIRED, expiresAt := 10 }

def revokedConsent : Consent := { sampleConsent with status := .REVOKED }

/-- A well-formed check input matching `sampleConsent`, no account filter. -/
def sampleInput : ConsentCheckInput :=
  { subjectId := "s", clientId := "cl", scopes := ["accounts:read"],
    accountIds := none, asOf := none }

/-- The same input with `asOf` exactly at the record's `expiresAt`. -/
def boundaryInput : ConsentCheckInput := { sampleInput with asOf := some 100 }

/-- The same input with an explicitly empty `accountIds` array. -/
def emptyAccountsInput : ConsentCheckInput := { sampleInput with accountIds := some [] }

/-- A creation request whose `clientId` differs from the caller's id. -/
def sampleCreateRequest : CreateConsentRequest :=
  { subjectId := "s", clientId := "other", dataScopes := ["accounts:read"],
    accountIds := ["a1"], purpose := "p", expiry := 1000 }

/-! ## Claim theorems -/

/-- Claim C7: `check` never raises: its body runs inside a `try`/`catch`
(`checkRun`), and every internal failure of the body is converted to the
structured fail-closed result `allow = false`, `reasons = ['system_error']`,
with the store untouched; a normal body result is returned unchanged, and
`check` itself is exactly the body run under this catch. -/
theorem check_fail_closed (e : String) (store st : Store) (input : ConsentCheckInput)
    (now : Nat) :
    checkRun (.error e) store = (systemErrorResult, store) ∧
    systemErrorResult.allow = false ∧
    systemErrorResult.reasons = some ["system_error"] ∧
    check st input now = checkRun (.ok (checkBody st input now)) st :=
  ⟨rfl, rfl, rfl, rfl⟩

/-- Claim C9: the record persisted by `createConsent` takes its `clientId` from
the request body, not from the separately passed `clientId` argument; only
the seed audit entry's actor carries that argument. -/
theorem createConsent_binds_request_clientId (req : CreateConsentRequest)
    (clientIdArg : String) (now : Nat) (freshId : String) (store : Store)
    (h : validateCreateRequest req now = .ok ()) :
    ∃ c, (createConsent req clientIdArg now freshId store).2 = store ++ [c] ∧
      c.clientId = req.clientId ∧
      c.auditTrail.map AuditEntry.actor = [clientIdArg] := by
  refine ⟨newConsentRecord req clientIdArg now freshId, ?_, rfl, rfl⟩
  simp [createConsent, h]

/-- Witness for C9 at a concrete request whose `clientId` (`"other"`)
differs from the caller id (`"cl"`). -/
theorem createConsent_binds_request_clientId_witness :
    ∃ c, (createConsent sampleCreateRequest "cl" 0 "id1" []).2 = [] ++ [c] ∧
      c.clientId = sampleCreateRequest.clientId ∧
      c.auditTrail.map AuditEntry.actor = ["cl"] :=
  createConsent_binds_request_clientId sampleCreateRequest "cl" 0 "id1" [] rfl

/-- Claim C10: an empty `accountIds` array behaves exactly as an absent one:
`check` returns the identical result (and store), and the result's
`filteredAccountIds` is `none`. -/
theorem check_empty_accountIds (store : Store) (input : ConsentCheckInput) (now : Nat)
    (h : input.accountIds = some []) :
    check store input now = check store { input with accountIds := none } now ∧
    (check store input now).1.filteredAccountIds = none := by
  have hscan := scanLoop_accountIds_nil input (input.asOf.getD now) now h
  constructor
  · simp only [check, checkRun, checkBody]
    rw [hscan]
    exact rfl
  · simp only [check, checkRun, checkBody]
    split
    · simp [denyResult]
    · split
      · simp [denyResult]
      · rcases hs : scanLoop input (input.asOf.getD now) now
            (store.filter (fun c => decide (c.subjectId = input.subjectId))) store with
          ⟨found, st2, seen⟩
        cases found with
        | none => simp [hs, denyResult]
        | some cf =>
          obtain ⟨c0, f0⟩ := cf
          have hspec := scanLoop_some_spec input (input.asOf.getD now) now _ store c0 f0
            (by rw [hs])
          have : f0 = none := by
            rw [hspec.2.2, expectedFiltered, h]
            simp
          simp [hs, this]

/-- Witness for C10 at a concrete store and input. -/
theorem check_empty_accountIds_witness :
    check [sampleConsent] emptyAccountsInput 50 =
      check [sampleConsent] { emptyAccountsInput with accountIds := none } 50 ∧
    (check [sampleConsent] emptyAccountsInput 50).1.filteredAccountIds = none :=
  check_empty_accountIds [sampleConsent] emptyAccountsInput 50 rfl

/-- Lemma: `validateUpdatePermissions` succeeds exactly on the spec's permitted
actor/action combinations. -/
theorem validateUpdatePermissions_ok_iff (c : Consent) (a : UAction) (aid : String)
    (aty : ActorType) :
    validateUpdatePermissions c a aid aty = .ok () ↔ permittedSpec c a aid aty := by
  cases a <;> cases aty <;>
    simp only [validateUpdatePermissions, permittedSpec] <;>
    split_ifs <;> simp_all

/-- Every failure of `validateUpdatePermissions` is a `ForbiddenError`. -/
theorem validateUpdatePermissions_error_forbidden (c : Consent) (a : UAction) (aid : String)
    (aty : ActorType) :
    validateUpdatePermissions c a aid aty = .ok () ∨
    ∃ m, validateUpdatePermissions c a aid aty = .error (.forbidden m) := by
  cases a <;> simp only [validateUpdatePermissions] <;> split_ifs <;> simp

/-- Claim C2, amended: on an existing, non-expired record and a permitted
actor, `updateConsent` succeeds exactly on the pairs of `amendedTargets`
(the §4.1 table plus `PENDING + resume → ACTIVE` and
`SUSPENDED + approve → ACTIVE`, the two extra pairs the code admits by
validating only the status edge), moving the status to the table's target;
on every other pair it raises a conflict and leaves the store unchanged. -/
theorem updateConsent_transition_table (store : Store) (cid : String) (c : Consent)
    (req : UpdateConsentRequest) (aid : String) (aty : ActorType) (now : Nat)
    (h1 : findById store cid = some c) (h2 : ¬ now > c.expiresAt)
    (h3 : validateUpdatePermissions c req.action aid aty = .ok ()) :
    match amendedTargets c.status req.action with
    | some tgt =>
      ∃ c', (updateConsent store cid req aid aty now).1 = .ok c' ∧ c'.status = tgt
    | none =>
      (∃ m, (updateConsent store cid req aid aty now).1 = .error (.conflict m)) ∧
      (updateConsent store cid req aid aty now).2 = store := by
  have tbl : ∀ (s : ConsentStatus) (a : UAction),
      amendedTargets s a =
        if getNewStatusForAction a ∈ validTransitions s then some (getNewStatusForAction a)
        else none := by
    intro s a
    cases s <;> cases a <;> decide
  simp only [updateConsent, h1]
  rw [if_neg h2]
  simp only [h3]
  rw [tbl]
  by_cases hmem : getNewStatusForAction req.action ∈ validTransitions c.status
  · rw [if_pos hmem]
    simp only [validateStateTransition]
    rw [if_pos hmem]
    exact ⟨_, rfl, rfl⟩
  · rw [if_neg hmem]
    simp only [validateStateTransition]
    rw [if_neg hmem]
    exact ⟨⟨_, rfl⟩, rfl⟩

/-- Counterexample to C2 as stated: `resume` on a `PENDING` record (a pair not
in the §4.1 table), performed by an admin on a non-expired record, succeeds
and moves both the returned and the stored record to `ACTIVE` instead of
raising a conflict and leaving the status unchanged. -/
theorem resume_on_pending_succeeds :
    ((updateConsent [pendingConsent] "c1" { action := .resume, reason := none }
        "adm" .admin 50).1.toOption.map Consent.status) = some ConsentStatus.ACTIVE ∧
    (findById (updateConsent [pendingConsent] "c1" { action := .resume, reason := none }
        "adm" .admin 50).2 "c1").map Consent.status = some ConsentStatus.ACTIVE := by
  decide

/-- Witness for C2: `approve` on a `PENDING` record by its subject succeeds
with target `ACTIVE`. -/
theorem updateConsent_transition_table_witness :
    ∃ c', (updateConsent [pendingConsent] "c1" { action := .approve, reason := none }
        "s" .subject 50).1 = .ok c' ∧ c'.status = ConsentStatus.ACTIVE :=
  updateConsent_transition_table [pendingConsent] "c1" pendingConsent
    { action := .approve, reason := none } "s" .subject 50 rfl (by decide) rfl

/-- Claim C3: on an existing, non-expired record the permission gate admits
exactly: `approve` by the record's own subject; `suspend`/`resume` by an
admin; `revoke` by the record's own subject, its own client, or an admin.
Every other combination makes `updateConsent` fail with a `ForbiddenError`
and leaves the store unchanged. -/
theorem updateConsent_permission_boundary (store : Store) (cid : String) (c : Consent)
    (req : UpdateConsentRequest) (aid : String) (aty : ActorType) (now : Nat)
    (h1 : findById store cid = some c) (h2 : ¬ now > c.expiresAt) :
    (validateUpdatePermissions c req.action aid aty = .ok () ↔
      permittedSpec c req.action aid aty) ∧
    (¬ permittedSpec c req.action aid aty →
      (∃ m, (updateConsent store cid req aid aty now).1 = .error (.forbidden m)) ∧
      (updateConsent store cid req aid aty now).2 = store) := by
  refine ⟨validateUpdatePermissions_ok_iff c req.action aid aty, fun hperm => ?_⟩
  rcases validateUpdatePermissions_error_forbidden c req.action aid aty with hok | ⟨m, herr⟩
  · exact absurd ((validateUpdatePermissions_ok_iff c req.action aid aty).mp hok) hperm
  · simp only [updateConsent, h1]
    rw [if_neg h2]
    simp [herr]

/-- Witness for C3: a client trying to `approve` is rejected with a
`ForbiddenError` and the store is unchanged. -/
theorem updateConsent_permission_boundary_witness :
    (∃ m, (updateConsent [pendingConsent] "c1" { action := .approve, reason := none }
        "cl" .client 50).1 = .error (.forbidden m)) ∧
    (updateConsent [pendingConsent] "c1" { action := .approve, reason := none }
        "cl" .client 50).2 = [pendingConsent] :=
  (updateConsent_permission_boundary [pendingConsent] "c1" pendingConsent
    { action := .approve, reason := none } "cl" .client 50 rfl (by decide)).2 (by decide)

/-- Claim C4, amended: `updateConsent` on an existing record whose `expiresAt`
is past always fails with the conflict "Cannot update expired consent"; if
the record was not already `EXPIRED` the expiry mutation is persisted first
(status `EXPIRED`, fresh `updatedAt`, an appended expiry audit entry), while
an already-`EXPIRED` record is left completely untouched. -/
theorem updateConsent_expired_lazy_mutation (store : Store) (cid : String) (c : Consent)
    (req : UpdateConsentRequest) (aid : String) (aty : ActorType) (now : Nat)
    (h1 : findById store cid = some c) (h2 : now > c.expiresAt) :
    (updateConsent store cid req aid aty now).1 =
      .error (.conflict "Cannot update expired consent") ∧
    (c.status = .EXPIRED → (updateConsent store cid req aid aty now).2 = store) ∧
    (c.status ≠ .EXPIRED →
      findById (updateConsent store cid req aid aty now).2 cid =
        some { c with status := .EXPIRED, updatedAt := now,
                      auditTrail := c.auditTrail ++ [expiryAuditEntry c now] }) := by
  have hid : c.id = cid := findById_id _ _ _ h1
  simp only [updateConsent, h1]
  rw [if_pos h2]
  refine ⟨rfl, fun hE => by simp [expireConsent, hE], fun hNE => ?_⟩
  dsimp only
  rw [← hid]
  exact findById_expireConsent_self c c now store hNE (by rw [hid]; exact h1)

/-- Counterexample to C4 as stated: on a record already stored as `EXPIRED`
(with past `expiresAt`) the call still fails with the conflict, but nothing
is persisted and no expiry audit entry is appended — the store is identical
and the audit trail is still empty. -/
theorem update_already_expired_no_mutation :
    (updateConsent [expiredConsent] "c1" { action := .approve, reason := none }
        "s" .subject 20).1 = .error (.conflict "Cannot update expired consent") ∧
    (updateConsent [expiredConsent] "c1" { action := .approve, reason := none }
        "s" .subject 20).2 = [expiredConsent] ∧
    ((updateConsent [expiredConsent] "c1" { action := .approve, reason := none }
        "s" .subject 20).2.map (fun c => c.auditTrail.length)) = [0] :=
  ⟨rfl, rfl, rfl⟩

/-- Witness for C4 (amended): on a stored-`ACTIVE` record with past expiry the
call fails with the conflict and the store holds the expired record with the
appended expiry entry. -/
theorem updateConsent_expired_lazy_mutation_witness :
    (updateConsent [sampleConsent] "c1" { action := .approve, reason := none }
        "s" .subject 200).1 = .error (.conflict "Cannot update expired consent") ∧
    (sampleConsent.status = .EXPIRED →
      (updateConsent [sampleConsent] "c1" { action := .approve, reason := none }
        "s" .subject 200).2 = [sampleConsent]) ∧
    (sampleConsent.status ≠ .EXPIRED →
      findById (updateConsent [sampleConsent] "c1" { action := .approve, reason := none }
          "s" .subject 200).2 "c1" =
        some { sampleConsent with
                 status := .EXPIRED, updatedAt := 200,
                 auditTrail := sampleConsent.auditTrail ++
                   [expiryAuditEntry sampleConsent 200] }) :=
  updateConsent_expired_lazy_mutation [sampleConsent] "c1" sampleConsent
    { action := .approve, reason := none } "s" .subject 200 rfl (by decide)

/-- Claim C8: `createConsent` fails with a `ValidationError` exactly when the
requested expiry is not strictly in the future or more than one year ahead;
otherwise it appends a fresh record with the supplied fresh id, status
`PENDING`, and an audit trail of exactly one `consent.created` entry whose
actor is the caller's `clientId` argument with actor type `client`.  The
creation response is `createResponse`, a shape with no audit-trail field. -/
theorem createConsent_spec (req : CreateConsentRequest) (clientIdArg : String) (now : Nat)
    (freshId : String) (store : Store) :
    ((req.expiry ≤ now ∨ oneYearFrom now < req.expiry) →
      (∃ m, (createConsent req clientIdArg now freshId store).1 = .error (.validation m)) ∧
      (createConsent req clientIdArg now freshId store).2 = store) ∧
    (now < req.expiry → req.expiry ≤ oneYearFrom now →
      (createConsent req clientIdArg now freshId store).1 =
        .ok (createResponse (newConsentRecord req clientIdArg now freshId)) ∧
      (createConsent req clientIdArg now freshId store).2 =
        store ++ [newConsentRecord req clientIdArg now freshId] ∧
      (newConsentRecord req clientIdArg now freshId).status = .PENDING ∧
      (newConsentRecord req clientIdArg now freshId).id = freshId ∧
      (newConsentRecord req clientIdArg now freshId).auditTrail =
        [createdAuditEntry clientIdArg now] ∧
      (createdAuditEntry clientIdArg now).action = "consent.created" ∧
      (createdAuditEntry clientIdArg now).actor = clientIdArg ∧
      (createdAuditEntry clientIdArg now).actorType = .client) := by
  constructor
  · intro h
    rcases h with h | h
    · simp only [createConsent, validateCreateRequest]
      rw [if_pos h]
      exact ⟨⟨_, rfl⟩, rfl⟩
    · by_cases h0 : req.expiry ≤ now
      · simp only [createConsent, validateCreateRequest]
        rw [if_pos h0]
        exact ⟨⟨_, rfl⟩, rfl⟩
      · simp only [createConsent, validateCreateRequest]
        rw [if_neg h0, if_pos h]
        exact ⟨⟨_, rfl⟩, rfl⟩
  · intro hlt hle
    simp only [createConsent, validateCreateRequest]
    rw [if_neg (not_le.mpr hlt), if_neg (not_lt.mpr hle)]
    exact ⟨rfl, rfl, rfl, rfl, rfl, rfl, rfl, rfl⟩

/-- Witness for C8: a concrete valid creation (expiry 1000, now 0). -/
theorem createConsent_spec_witness :
    (createConsent sampleCreateRequest "cl" 0 "id1" []).1 =
      .ok (createResponse (newConsentRecord sampleCreateRequest "cl" 0 "id1")) ∧
    (createConsent sampleCreateRequest "cl" 0 "id1" []).2 =
      [] ++ [newConsentRecord sampleCreateRequest "cl" 0 "id1"] ∧
    (newConsentRecord sampleCreateRequest "cl" 0 "id1").status = .PENDING ∧
    (newConsentRecord sampleCreateRequest "cl" 0 "id1").id = "id1" ∧
    (newConsentRecord sampleCreateRequest "cl" 0 "id1").auditTrail =
      [createdAuditEntry "cl" 0] ∧
    (createdAuditEntry "cl" 0).action = "consent.created" ∧
    (createdAuditEntry "cl" 0).actor = "cl" ∧
    (createdAuditEntry "cl" 0).actorType = .client :=
  (createConsent_spec sampleCreateRequest "cl" 0 "id1" []).2 (by decide) (by decide)

/-- Claim C1, amended: for a well-formed input, `check` allows exactly when
some stored record of the subject satisfies `consentMatches` — client
binding, `ACTIVE`, `expiresAt` **at or after** the effective time (the code's
comparison is non-strict), all scopes granted, and the account condition with
an empty `accountIds` array treated like an absent one; on allow, the chosen
record also supplies `consentId`, `expiresAt` and
`filteredAccountIds = expectedFiltered` (the requested ∩ granted accounts
when `accountIds` was supplied non-empty, `none` otherwise). -/
theorem check_allow_iff_matching (store : Store) (input : ConsentCheckInput) (now : Nat)
    (h1 : input.subjectId ≠ "") (h2 : input.clientId ≠ "") (h3 : input.scopes ≠ []) :
    ((check store input now).1.allow = true ↔
      ∃ r ∈ store, r.subjectId = input.subjectId ∧
        consentMatches input (input.asOf.getD now) r) ∧
    ((check store input now).1.allow = true →
      ∃ r ∈ store, r.subjectId = input.subjectId ∧
        consentMatches input (input.asOf.getD now) r ∧
        (check store input now).1.consentId = some r.id ∧
        (check store input now).1.expiresAt = some r.expiresAt ∧
        (check store input now).1.filteredAccountIds = expectedFiltered input r) := by
  have hval : ¬ (input.subjectId = "" ∨ input.clientId = "" ∨ input.scopes = []) := by
    push_neg
    exact ⟨h1, h2, h3⟩
  simp only [check, checkRun, checkBody]
  rw [if_neg hval]
  by_cases hemp : (store.filter (fun c => decide (c.subjectId = input.subjectId))).isEmpty
  · rw [if_pos hemp]
    have hnil := List.isEmpty_iff.mp hemp
    constructor
    · constructor
      · intro habs
        simp [denyResult] at habs
      · rintro ⟨r, hr, hsub, _⟩
        have : r ∈ store.filter (fun c => decide (c.subjectId = input.subjectId)) :=
          List.mem_filter.mpr ⟨hr, by simpa using hsub⟩
        rw [hnil] at this
        cases this
    · intro habs
      simp [denyResult] at habs
  · rw [if_neg hemp]
    rcases hs : scanLoop input (input.asOf.getD now) now
        (store.filter (fun c => decide (c.subjectId = input.subjectId))) store with
      ⟨found, st2, seen⟩
    cases found with
    | some cf =>
      obtain ⟨c0, f0⟩ := cf
      have hspec := scanLoop_some_spec input (input.asOf.getD now) now _ store c0 f0
        (by rw [hs])
      have hmem := List.mem_filter.mp hspec.1
      dsimp only
      refine ⟨⟨fun _ => ⟨c0, hmem.1, by simpa using hmem.2, hspec.2.1⟩, fun _ => rfl⟩,
        fun _ => ⟨c0, hmem.1, by simpa using hmem.2, hspec.2.1, rfl, rfl, ?_⟩⟩
      simpa using hspec.2.2
    | none =>
      have hnone := scanLoop_none_spec input (input.asOf.getD now) now _ store (by rw [hs])
      dsimp only
      constructor
      · constructor
        · intro habs
          simp [denyResult] at habs
        · rintro ⟨r, hr, hsub, hm⟩
          exact absurd hm (hnone.1 r (List.mem_filter.mpr ⟨hr, by simpa using hsub⟩))
      · intro habs
        simp [denyResult] at habs

/-- Witness for C1 (amended): the theorem grants access on a concrete
matching store and input. -/
theorem check_allow_iff_matching_witness :
    (check [sampleConsent] sampleInput 0).1.allow = true :=
  (check_allow_iff_matching [sampleConsent] sampleInput 0 (by decide) (by decide)
    (by decide)).1.mpr (by decide)

/-- Counterexample to C1 as stated, at two concrete inputs.  First, with
`asOf` equal to the record's `expiresAt` (boundary instant) the code allows,
yet no stored record of the subject satisfies the claim's condition with a
strictly later `expiresAt`.  Second, with `accountIds` supplied as the empty
array the code allows with `filteredAccountIds` undefined, yet no record has
a non-empty intersection with the (empty) requested accounts, and the
returned `filteredAccountIds` is not that (empty) intersection either. -/
theorem check_soundness_claim_refuted :
    ((check [sampleConsent] boundaryInput 0).1.allow = true ∧
      ¬ ∃ r ∈ [sampleConsent], r.subjectId = boundaryInput.subjectId ∧
          specStrictMatch boundaryInput (boundaryInput.asOf.getD 0) r) ∧
    ((check [sampleConsent] emptyAccountsInput 50).1.allow = true ∧
      (¬ ∃ r ∈ [sampleConsent], r.subjectId = emptyAccountsInput.subjectId ∧
          specStrictMatch emptyAccountsInput (emptyAccountsInput.asOf.getD 50) r) ∧
      (check [sampleConsent] emptyAccountsInput 50).1.filteredAccountIds ≠ some []) := by
  decide

/-! ## Denial-classification lemmas -/

theorem classifyDenial_client_mismatch (input : ConsentCheckInput) (eff : List Consent)
    (h : ¬ ∃ r ∈ eff, r.clientId = input.clientId) :
    classifyDenial input eff = ["client_mismatch"] := by
  have hB : eff.filter (fun c => decide (c.clientId = input.clientId)) = [] := by
    rw [List.filter_eq_nil_iff]
    intro a ha
    simp only [decide_eq_true_eq]
    exact fun hc => h ⟨a, ha, hc⟩
  have hA : eff.filter
      (fun c => decide (c.clientId = input.clientId ∧ c.status = .ACTIVE)) = [] := by
    rw [List.filter_eq_nil_iff]
    intro a ha
    simp only [decide_eq_true_eq, not_and]
    exact fun hc _ => h ⟨a, ha, hc⟩
  simp only [classifyDenial]
  rw [hA, hB]
  rfl

theorem classifyDenial_status_priority (input : ConsentCheckInput) (eff : List Consent)
    (hB : ∃ r ∈ eff, r.clientId = input.clientId)
    (hA : ¬ ∃ r ∈ eff, r.clientId = input.clientId ∧ r.status = .ACTIVE) :
    ((∃ r ∈ eff, r.clientId = input.clientId ∧ r.status = .EXPIRED) →
      classifyDenial input eff = ["expired"]) ∧
    ((¬ ∃ r ∈ eff, r.clientId = input.clientId ∧ r.status = .EXPIRED) →
      (∃ r ∈ eff, r.clientId = input.clientId ∧ r.status = .REVOKED) →
      classifyDenial input eff = ["revoked"]) ∧
    ((¬ ∃ r ∈ eff, r.clientId = input.clientId ∧ r.status = .EXPIRED) →
      (¬ ∃ r ∈ eff, r.clientId = input.clientId ∧ r.status = .REVOKED) →
      (∃ r ∈ eff, r.clientId = input.clientId ∧ r.status = .SUSPENDED) →
      classifyDenial input eff = ["suspended"]) ∧
    ((¬ ∃ r ∈ eff, r.clientId = input.clientId ∧ r.status = .EXPIRED) →
      (¬ ∃ r ∈ eff, r.clientId = input.clientId ∧ r.status = .REVOKED) →
      (¬ ∃ r ∈ eff, r.clientId = input.clientId ∧ r.status = .SUSPENDED) →
      classifyDenial input eff = ["not_active"]) := by
  have hAnil : eff.filter
      (fun c => decide (c.clientId = input.clientId ∧ c.status = .ACTIVE)) = [] := by
    rw [List.filter_eq_nil_iff]
    intro a ha
    simp only [decide_eq_true_eq, not_and]
    exact fun hc hs => hA ⟨a, ha, hc, hs⟩
  have hBne : eff.filter (fun c => decide (c.clientId = input.clientId)) ≠ [] := by
    obtain ⟨r, hre, hrc⟩ := hB
    exact List.ne_nil_of_mem (List.mem_filter.mpr ⟨hre, by simpa using hrc⟩)
  have hmem : ∀ s : ConsentStatus,
      (s ∈ (eff.filter (fun c => decide (c.clientId = input.clientId))).map Consent.status) ↔
      ∃ r ∈ eff, r.clientId = input.clientId ∧ r.status = s := by
    intro s
    constructor
    · intro hx
      obtain ⟨r, hr, hrs⟩ := List.mem_map.mp hx
      obtain ⟨hre, hrc⟩ := List.mem_filter.mp hr
      exact ⟨r, hre, by simpa using hrc, hrs⟩
    · rintro ⟨r, hre, hrc, hrs⟩
      exact List.mem_map.mpr ⟨r, List.mem_filter.mpr ⟨hre, by simpa using hrc⟩, hrs⟩
  simp only [classifyDenial, hAnil, List.isEmpty_nil, if_true]
  rw [if_neg (by simpa [List.isEmpty_iff] using hBne)]
  refine ⟨fun hE => ?_, fun hE hR => ?_, fun hE hR hS => ?_, fun hE hR hS => ?_⟩
  · rw [if_pos ((hmem _).mpr hE)]
  · rw [if_neg (fun hx => hE ((hmem _).mp hx)), if_pos ((hmem _).mpr hR)]
  · rw [if_neg (fun hx => hE ((hmem _).mp hx)), if_neg (fun hx => hR ((hmem _).mp hx)),
      if_pos ((hmem _).mpr hS)]
  · rw [if_neg (fun hx => hE ((hmem _).mp hx)), if_neg (fun hx => hR ((hmem _).mp hx)),
      if_neg (fun hx => hS ((hmem _).mp hx))]

theorem classifyDenial_scope_priority (input : ConsentCheckInput) (eff : List Consent)
    (hA : ∃ r ∈ eff, r.clientId = input.clientId ∧ r.status = .ACTIVE) :
    ((¬ ∃ r ∈ eff, r.clientId = input.clientId ∧ r.status = .ACTIVE ∧
        scopesSatisfied input.scopes r = true) →
      classifyDenial input eff = ["missing_scope"]) ∧
    ((∃ r ∈ eff, r.clientId = input.clientId ∧ r.status = .ACTIVE ∧
        scopesSatisfied input.scopes r = true) →
      classifyDenial input eff = ["not_account_scoped"]) := by
  have hAne : eff.filter
      (fun c => decide (c.clientId = input.clientId ∧ c.status = .ACTIVE)) ≠ [] := by
    obtain ⟨r, hre, hrc, hrs⟩ := hA
    exact List.ne_nil_of_mem (List.mem_filter.mpr ⟨hre, by simp [hrc, hrs]⟩)
  have hany : ((eff.filter
        (fun c => decide (c.clientId = input.clientId ∧ c.status = .ACTIVE))).any
          (scopesSatisfied input.scopes) = true) ↔
      ∃ r ∈ eff, r.clientId = input.clientId ∧ r.status = .ACTIVE ∧
        scopesSatisfied input.scopes r = true := by
    rw [List.any_eq_true]
    constructor
    · rintro ⟨r, hr, hsat⟩
      obtain ⟨hre, hrc⟩ := List.mem_filter.mp hr
      have hrc' := decide_eq_true_eq.mp hrc
      exact ⟨r, hre, hrc'.1, hrc'.2, hsat⟩
    · rintro ⟨r, hre, hrc, hrs, hsat⟩
      exact ⟨r, List.mem_filter.mpr ⟨hre, by simp [hrc, hrs]⟩, hsat⟩
  simp only [classifyDenial]
  rw [if_neg (by simpa [List.isEmpty_iff] using hAne)]
  constructor
  · intro h
    cases hb : (eff.filter
        (fun c => decide (c.clientId = input.clientId ∧ c.status = .ACTIVE))).any
        (scopesSatisfied input.scopes) with
    | false => rfl
    | true => exact absurd (hany.mp hb) h
  · intro h
    rw [hany.mpr h]
    rfl

/-- Claim C5: when `check` denies a well-formed request for a subject with at
least one stored record, the single returned reason follows the code's
priority over the subject's records with lazy expiry applied
(`effectiveConsents`, whose statuses agree with the statuses stored once the
call returns): `client_mismatch` when no record carries the requested
client; otherwise, when none of the client's records is `ACTIVE`, the
worst-case status present preferring expired over revoked over suspended
over generic `not_active`; otherwise `missing_scope` when no `ACTIVE`
client record grants every requested scope; otherwise
`not_account_scoped`. -/
theorem check_denial_priority (store : Store) (input : ConsentCheckInput) (now : Nat)
    (h1 : input.subjectId ≠ "") (h2 : input.clientId ≠ "") (h3 : input.scopes ≠ [])
    (h4 : ¬ (store.filter (fun c => decide (c.subjectId = input.subjectId))).isEmpty = true)
    (h5 : (check store input now).1.allow = false) :
    ∀ eff, eff = effectiveConsents store input (input.asOf.getD now) →
    ((¬ ∃ r ∈ eff, r.clientId = input.clientId) →
      (check store input now).1.reasons = some ["client_mismatch"]) ∧
    ((∃ r ∈ eff, r.clientId = input.clientId) →
     (¬ ∃ r ∈ eff, r.clientId = input.clientId ∧ r.status = .ACTIVE) →
      (((∃ r ∈ eff, r.clientId = input.clientId ∧ r.status = .EXPIRED) →
          (check store input now).1.reasons = some ["expired"]) ∧
       ((¬ ∃ r ∈ eff, r.clientId = input.clientId ∧ r.status = .EXPIRED) →
        (∃ r ∈ eff, r.clientId = input.clientId ∧ r.status = .REVOKED) →
          (check store input now).1.reasons = some ["revoked"]) ∧
       ((¬ ∃ r ∈ eff, r.clientId = input.clientId ∧ r.status = .EXPIRED) →
        (¬ ∃ r ∈ eff, r.clientId = input.clientId ∧ r.status = .REVOKED) →
        (∃ r ∈ eff, r.clientId = input.clientId ∧ r.status = .SUSPENDED) →
          (check store input now).1.reasons = some ["suspended"]) ∧
       ((¬ ∃ r ∈ eff, r.clientId = input.clientId ∧ r.status = .EXPIRED) →
        (¬ ∃ r ∈ eff, r.clientId = input.clientId ∧ r.status = .REVOKED) →
        (¬ ∃ r ∈ eff, r.clientId = input.clientId ∧ r.status = .SUSPENDED) →
          (check store input now).1.reasons = some ["not_active"]))) ∧
    ((∃ r ∈ eff, r.clientId = input.clientId ∧ r.status = .ACTIVE) →
      (((¬ ∃ r ∈ eff, r.clientId = input.clientId ∧ r.status = .ACTIVE ∧
           scopesSatisfied input.scopes r = true) →
          (check store input now).1.reasons = some ["missing_scope"]) ∧
       ((∃ r ∈ eff, r.clientId = input.clientId ∧ r.status = .ACTIVE ∧
           scopesSatisfied input.scopes r = true) →
          (check store input now).1.reasons = some ["not_account_scoped"]))) := by
  intro eff heff
  have hval : ¬ (input.subjectId = "" ∨ input.clientId = "" ∨ input.scopes = []) := by
    push_neg
    exact ⟨h1, h2, h3⟩
  simp only [check, checkRun, checkBody] at h5 ⊢
  rw [if_neg hval] at h5 ⊢
  rw [if_neg h4] at h5 ⊢
  rcases hs : scanLoop input (input.asOf.getD now) now
      (store.filter (fun c => decide (c.subjectId = input.subjectId))) store with
    ⟨found, st2, seen⟩
  rw [hs] at h5
  cases found with
  | some cf =>
    obtain ⟨c0, f0⟩ := cf
    dsimp only at h5
    cases h5
  | none =>
    have hnone := scanLoop_none_spec input (input.asOf.getD now) now _ store (by rw [hs])
    have hseen : seen = eff := by
      have := hnone.2
      rw [hs] at this
      rw [heff, effectiveConsents]
      exact this
    dsimp only
    subst hseen
    refine ⟨fun hcm => ?_, fun hB hA => ?_, fun hA => ?_⟩
    · rw [classifyDenial_client_mismatch input seen hcm]
      rfl
    · obtain ⟨p1, p2, p3, p4⟩ := classifyDenial_status_priority input seen hB hA
      refine ⟨fun hE => ?_, fun hE hR => ?_, fun hE hR hS => ?_, fun hE hR hS => ?_⟩
      · rw [p1 hE]; rfl
      · rw [p2 hE hR]; rfl
      · rw [p3 hE hR hS]; rfl
      · rw [p4 hE hR hS]; rfl
    · obtain ⟨p1, p2⟩ := classifyDenial_scope_priority input seen hA
      refine ⟨fun hMS => ?_, fun hOK => ?_⟩
      · rw [p1 hMS]; rfl
      · rw [p2 hOK]; rfl

/-- Witness for C5: a concrete denial classified as `revoked`. -/
theorem check_denial_priority_witness :
    (check [revokedConsent] sampleInput 50).1.reasons = some ["revoked"] :=
  (((check_denial_priority [revokedConsent] sampleInput 50 (by decide) (by decide)
      (by decide) (by decide) (by decide) _ rfl).2.1 (by decide) (by decide)).2.1
    (by decide) (by decide))

/-- Claim C6: a record past its `expiresAt` is treated as `EXPIRED`:
(1) `getConsent` leaves the stored record `EXPIRED` whatever its prior
status; (2) `check` can only grant through a record that is `ACTIVE` and not
past expiry at the effective time; and the expiry write happens at most
once: on a record already stored `EXPIRED`, (3) `getConsent` leaves the
whole store untouched and (4) `check` leaves that record — status and audit
trail — exactly as it was (given distinct stored ids). -/
theorem expiry_treated_as_expired (store : Store) (cid requesterId : String)
    (rty : ActorType) (input : ConsentCheckInput) (now : Nat) (c : Consent) :
    (findById store cid = some c → now > c.expiresAt →
      ∃ c', findById (getConsent store cid requesterId rty now).2 cid = some c' ∧
        c'.status = .EXPIRED) ∧
    ((check store input now).1.allow = true →
      ∃ r ∈ store, r.status = .ACTIVE ∧ input.asOf.getD now ≤ r.expiresAt ∧
        (check store input now).1.consentId = some r.id) ∧
    (findById store cid = some c → c.status = .EXPIRED →
      (getConsent store cid requesterId rty now).2 = store) ∧
    (findById store cid = some c → c.status = .EXPIRED → (store.map Consent.id).Nodup →
      findById (check store input now).2 cid = some c) := by
  refine ⟨?_, ?_, ?_, ?_⟩
  · intro h1 h2
    have hid : c.id = cid := findById_id _ _ _ h1
    simp only [getConsent, h1]
    rw [if_pos h2]
    by_cases hE : c.status = .EXPIRED
    · have hsame : expireConsent c now store = store := by simp [expireConsent, hE]
      rw [hsame]
      split
      · exact ⟨c, h1, hE⟩
      · exact ⟨c, h1, hE⟩
    · have hself := findById_expireConsent_self c c now store hE (by rw [hid]; exact h1)
      rw [hid] at hself
      split
      · exact ⟨_, hself, rfl⟩
      · exact ⟨_, hself, rfl⟩
  · intro hallow
    simp only [check, checkRun, checkBody] at hallow ⊢
    by_cases hval : input.subjectId = "" ∨ input.clientId = "" ∨ input.scopes = []
    · rw [if_pos hval] at hallow
      simp [denyResult] at hallow
    · rw [if_neg hval] at hallow ⊢
      by_cases hemp :
          (store.filter (fun x => decide (x.subjectId = input.subjectId))).isEmpty = true
      · rw [if_pos hemp] at hallow
        simp [denyResult] at hallow
      · rw [if_neg hemp] at hallow ⊢
        rcases hs : scanLoop input (input.asOf.getD now) now
            (store.filter (fun x => decide (x.subjectId = input.subjectId))) store with
          ⟨found, st2, seen⟩
        rw [hs] at hallow
        cases found with
        | none =>
          dsimp only at hallow
          simp [denyResult] at hallow
        | some cf =>
          obtain ⟨c0, f0⟩ := cf
          have hspec := scanLoop_some_spec input (input.asOf.getD now) now _ store c0 f0
            (by rw [hs])
          have hmem := List.mem_filter.mp hspec.1
          dsimp only
          exact ⟨c0, hmem.1, hspec.2.1.2.1, hspec.2.1.2.2.1, rfl⟩
  · intro h1 hE
    simp only [getConsent, h1]
    have hsame : expireConsent c now store = store := by simp [expireConsent, hE]
    by_cases h2 : now > c.expiresAt
    · rw [if_pos h2, hsame]
      split
      · rfl
      · rfl
    · rw [if_neg h2]
      split
      · rfl
      · rfl
  · intro h1 hE hnd
    have hid : c.id = cid := findById_id _ _ _ h1
    have hcmem : c ∈ store := findById_mem _ _ _ h1
    have hkey : ∀ c' ∈ store.filter (fun x => decide (x.subjectId = input.subjectId)),
        c'.status = .ACTIVE → c'.id ≠ cid := by
      intro c' hc' hact heq
      have hc'mem := (List.mem_filter.mp hc').1
      have hcc : c' = c := mem_id_unique store hnd hc'mem hcmem (by rw [heq, hid])
      rw [hcc, hE] at hact
      cases hact
    simp only [check, checkRun, checkBody]
    by_cases hval : input.subjectId = "" ∨ input.clientId = "" ∨ input.scopes = []
    · rw [if_pos hval]
      exact h1
    · rw [if_neg hval]
      by_cases hemp :
          (store.filter (fun x => decide (x.subjectId = input.subjectId))).isEmpty = true
      · rw [if_pos hemp]
        exact h1
      · rw [if_neg hemp]
        rcases hs : scanLoop input (input.asOf.getD now) now
            (store.filter (fun x => decide (x.subjectId = input.subjectId))) store with
          ⟨found, st2, seen⟩
        have hpres : findById st2 cid = findById store cid := by
          have hp := scanLoop_findById_preserved input (input.asOf.getD now) now cid
            (store.filter (fun x => decide (x.subjectId = input.subjectId))) store hkey
          rw [hs] at hp
          exact hp
        cases found with
        | none =>
          dsimp only
          rw [hpres]
          exact h1
        | some cf =>
          obtain ⟨c0, f0⟩ := cf
          have hspec := scanLoop_some_spec input (input.asOf.getD now) now _ store c0 f0
            (by rw [hs])
          have hc0 : c0.id ≠ cid := hkey c0 hspec.1 hspec.2.1.2.1
          dsimp only
          rw [repoAddAudit, findById_updateById_of_ne st2 c0.id cid
            (fun y => { y with auditTrail := y.auditTrail ++ [checkAuditEntry input now] })
            (fun _ => rfl) hc0, hpres]
          exact h1

/-- Witness for C6: `getConsent` on a stored-`ACTIVE` record past expiry
leaves the stored record `EXPIRED`. -/
theorem expiry_treated_as_expired_witness :
    ∃ c', findById (getConsent [sampleConsent] "c1" "s" .subject 200).2 "c1" = some c' ∧
      c'.status = ConsentStatus.EXPIRED :=
  (expiry_treated_as_expired [sampleConsent] "c1" "s" .subject sampleInput 200
    sampleConsent).1 rfl (by decide)

end ConsentCore
